import Mathlib

set_option maxHeartbeats 1000000

/-! Shallow embedding of the datman repository (src/bin/dm-qc-todo.py and
src/bin/xnat-extract.py), together with theorems settling the spec claims.
Pure string manipulation is translated directly; filesystem reads are
modelled by oracle parameters (`fs : String → Bool` for `os.path.exists` /
`os.path.isdir`); filesystem writes and external process invocations are
modelled as an explicit effect trace. -/

/-- Helper for substring containment: true iff `pat` occurs in the list. -/
def containsSubAux (pat : List Char) : List Char → Bool
  | [] => pat.isEmpty
  | c :: rest => pat.isPrefixOf (c :: rest) || containsSubAux pat rest

/-- Python substring containment `pat in s`. -/
def strContains (s pat : String) : Bool := containsSubAux pat.toList s.toList

/-- Python `str.replace(pat, rep)` on character lists: replaces every
non-overlapping occurrence, scanning left to right. Each step consumes at
least one character, so `fuel` initialised to the list length makes the
fuel-exhaustion branch unreachable (fuel keeps the recursion structural). -/
def replaceAllAux (pat rep : List Char) : Nat → List Char → List Char
  | _, [] => []
  | 0, s => s
  | fuel + 1, c :: rest =>
    if !pat.isEmpty && pat.isPrefixOf (c :: rest) then
      rep ++ replaceAllAux pat rep fuel ((c :: rest).drop pat.length)
    else c :: replaceAllAux pat rep fuel rest

/-- Python `s.replace(pat, rep)`. -/
def replaceAll (s pat rep : String) : String :=
  ⟨replaceAllAux pat.toList rep.toList s.toList.length s.toList⟩

/-- Python `s.split(c)` for a one-character separator. -/
def splitCharAux (c : Char) : List Char → List Char → List String
  | [], cur => [⟨cur.reverse⟩]
  | d :: rest, cur =>
    if d = c then ⟨cur.reverse⟩ :: splitCharAux c rest []
    else splitCharAux c rest (d :: cur)

/-- Python `s.split(c)` for a one-character separator. -/
def splitChar (c : Char) (s : String) : List String := splitCharAux c s.toList []

/-- Python `str.zfill(w)` for non-negative numeric strings (series numbers
never carry a sign here, so the sign-handling branch of zfill is not
modelled). -/
def zfill (w : Nat) (s : String) : String :=
  if w ≤ s.length then s else ⟨List.replicate (w - s.length) '0'⟩ ++ s

/-- Python `s.startswith(p)` (on the character lists, so that it evaluates
inside the kernel). -/
def strStartsWith (s p : String) : Bool := p.toList.isPrefixOf s.toList

/-- Python `s.endswith(p)`. -/
def strEndsWith (s p : String) : Bool := p.toList.isSuffixOf s.toList

/-- Python `sep.join(parts)`. -/
def strJoin (sep : String) : List String → String
  | [] => ""
  | [x] => x
  | x :: xs => x ++ sep ++ strJoin sep xs

/-- `os.path.join` for POSIX paths, two components. -/
def pathJoin (a b : String) : String :=
  if strStartsWith b "/" then b
  else if a = "" then b
  else if strEndsWith a "/" then a ++ b
  else a ++ "/" ++ b

/-- `os.path.basename`: the part after the last separator. -/
def basename (p : String) : String := (splitChar '/' p).getLastD ""

/-- `s.count(os.path.sep)`: number of '/' characters in a path string. -/
def sepCount (s : String) : Nat := s.toList.count '/'

/-- Python dict lookup `d[k]` / `k in d`, on an association list. -/
def dictGet {α : Type} (d : List (String × α)) (k : String) : Option α :=
  (d.find? (fun kv => kv.1 = k)).map (·.2)

/-- Python dict assignment `d[k] = v`: overwrite the binding if the key is
present (keys of a dict are unique, so at most one binding exists),
otherwise append it. -/
def dictSet {α : Type} : List (String × α) → String → α → List (String × α)
  | [], k, v => [(k, v)]
  | kv :: rest, k, v =>
    if kv.1 = k then (kv.1, v) :: rest else kv :: dictSet rest k v

/-- Python `dict(pairs)`: left-to-right insertion with overwrite on
duplicate keys. (A Python 2 dict does not retain any usable ordering; the
theorems below only depend on the underlying key/value collection.) -/
def dictOfPairs {α : Type} (l : List (String × α)) : List (String × α) :=
  l.foldl (fun acc kv => dictSet acc kv.1 kv.2) []

theorem dictGet_set_eq {α : Type} (d : List (String × α)) (k : String) (v : α) :
    dictGet (dictSet d k v) k = some v := by
  induction d with
  | nil => simp [dictGet, dictSet, List.find?]
  | cons kv rest ih =>
    by_cases hk : kv.1 = k
    · simp [dictGet, dictSet, hk, List.find?]
    · simpa [dictGet, dictSet, hk, List.find?] using ih

theorem dictGet_set_ne {α : Type} (d : List (String × α)) (k k' : String)
    (v : α) (h : k' ≠ k) : dictGet (dictSet d k v) k' = dictGet d k' := by
  induction d with
  | nil => simp [dictGet, dictSet, List.find?, Ne.symm h]
  | cons kv rest ih =>
    by_cases hk : kv.1 = k
    · simp [dictGet, dictSet, hk, List.find?, Ne.symm h]
    · by_cases hk' : kv.1 = k'
      · simp [dictGet, dictSet, hk, List.find?, hk', h]
      · simpa [dictGet, dictSet, hk, List.find?, hk'] using ih

theorem dictGet_isSome_of_mem {α : Type} (d : List (String × α)) (k : String)
    (h : k ∈ d.map Prod.fst) : (dictGet d k).isSome := by
  induction d with
  | nil => simp at h
  | cons kv rest ih =>
    unfold dictGet
    by_cases hk : kv.1 = k
    · simp [List.find?, hk]
    · simp only [List.map_cons, List.mem_cons] at h
      rcases h with h | h
      · exact absurd h.symm hk
      · simp only [List.find?]
        rw [show ((kv.1 = k : Bool)) = false by simp [hk]]
        exact ih h

/-! dm-qc-todo.py: filesystem model and `get_project_dirs`.

A directory is modelled as a node carrying its name, whether
`metadata/checklist.csv` exists directly beneath it, and its
subdirectories in `os.listdir` order. -/

mutual
/-- A directory: name, whether `metadata/checklist.csv` exists directly
beneath it, and its subdirectories in `os.listdir` order. -/
inductive DTree where
  | node (name : String) (hasChecklist : Bool) (children : DForest)
/-- A list of sibling directories in `os.listdir` order (a separate
inductive so the traversal below is a structural mutual recursion). -/
inductive DForest where
  | nil
  | cons (t : DTree) (ts : DForest)
end

def DTree.name : DTree → String
  | .node n _ _ => n

def DTree.hasChecklist : DTree → Bool
  | .node _ ck _ => ck

def DTree.children : DTree → DForest
  | .node _ _ ch => ch

mutual
/-- The traversal of `get_project_dirs` at one directory below the root:
`os.walk` visits the directory at path `pathJoin parent name`, appends it
to `paths` and prunes (`del dirs[:]`) when the checklist exists, prunes
when `dirpath.count(os.path.sep) - root.count(os.path.sep) >= maxdepth`,
and otherwise descends in listing order. Returns the visited
(dirpath, directory) pairs in visit order together with the accumulated
`paths` list. -/
def walkT (root : String) (maxdepth : Nat) (parent : String) :
    DTree → List (String × DTree) × List String
  | DTree.node n ck ch =>
    let dirpath := pathJoin parent n
    let descend := !ck && decide (sepCount dirpath - sepCount root < maxdepth)
    let sub := if descend then walkL root maxdepth dirpath ch else ([], [])
    ((dirpath, DTree.node n ck ch) :: sub.1,
     (if ck then [dirpath] else []) ++ sub.2)
/-- Traversal of a list of sibling directories, in order. -/
def walkL (root : String) (maxdepth : Nat) (parent : String) :
    DForest → List (String × DTree) × List String
  | DForest.nil => ([], [])
  | DForest.cons t ts =>
    let r1 := walkT root maxdepth parent t
    let r2 := walkL root maxdepth parent ts
    (r1.1 ++ r2.1, r1.2 ++ r2.2)
end

/-- `os.walk(root)` including the root directory itself, whose dirpath is
the `root` argument string (depth 0). -/
def projWalk (root : String) (maxdepth : Nat) (t : DTree) :
    List (String × DTree) × List String :=
  let descend := !t.hasChecklist && decide (sepCount root - sepCount root < maxdepth)
  let sub := if descend then walkL root maxdepth root t.children else ([], [])
  ((root, t) :: sub.1, (if t.hasChecklist then [root] else []) ++ sub.2)

/-- src/bin/dm-qc-todo.py `get_project_dirs(root, maxdepth=2)`, with the
directory tree under `root` passed explicitly. -/
def get_project_dirs (root : String) (maxdepth : Nat) (t : DTree) : List String :=
  (projWalk root maxdepth t).2

mutual
/-- Well-formedness of the modelled tree: directory names contain no path
separator (true of every real directory entry). -/
def wfTree : DTree → Bool
  | DTree.node n _ ch => !(n.toList.contains '/') && wfForest ch
/-- Well-formedness of a sibling list. -/
def wfForest : DForest → Bool
  | DForest.nil => true
  | DForest.cons t ts => wfTree t && wfForest ts
end

/-- A loaded checklist: `document filename → annotation tokens`, in file
(line) order; keys are unique because it is built as a Python dict. -/
abbrev Checklist := List (String × List String)

/-- src/bin/dm-qc-todo.py lines 56-58: for every key of the loaded mapping
containing ".pdf", bind the key with ".pdf" replaced by ".html" to the
current value of the original key. The iteration is over a snapshot of the
keys (`checklistdict.keys()` is a list in Python 2). -/
def addHtmlStep (acc : Checklist) (k : String) : Checklist :=
  if strContains k ".pdf" then
    dictSet acc (replaceAll k ".pdf" ".html") ((dictGet acc k).getD [])
  else acc

/-- The loop over the snapshot of the keys. -/
def addHtmlKeys (d : Checklist) : Checklist :=
  (d.map Prod.fst).foldl addHtmlStep d

/-- One printed line of the QC auditor's per-timepoint report. -/
inductive Report where
  | noChecklistEntry (timepointdir : String)
  | noQcDoc (timepointdir : String)
  | stale (qcdoc : String) (newer : List String)
  | notSignedOff (qcdoc : String)
deriving DecidableEq

/-- src/bin/dm-qc-todo.py lines 60-86: the body of the per-timepoint loop.
`fs` models `os.path.exists`, `dataMtime` the precomputed maximum data
modification time, `getmtime` the file modification time oracle and
`newerFiles` the files found newer than the QC doc in the stale branch. -/
def auditTimepoint (checklist : Checklist) (projectdir timepointdir : String)
    (fs : String → Bool) (showNewer : Bool) (dataMtime : Int)
    (getmtime : String → Int) (newerFiles : List String) : List Report :=
  if strContains timepointdir "_PHA_" then [] else
  let timepoint := basename timepointdir
  let qcdocname := "qc_" ++ timepoint ++ ".html"
  let qcdoc := pathJoin (pathJoin (pathJoin projectdir "qc") timepoint) qcdocname
  match dictGet checklist qcdocname with
  | none => [Report.noChecklistEntry timepointdir]
  | some ann =>
    if !(fs qcdoc) then [Report.noQcDoc timepointdir]
    else
      (if showNewer && decide (dataMtime > getmtime qcdoc) then
        [Report.stale qcdoc newerFiles] else [])
      ++ (if ann.isEmpty then [Report.notSignedOff qcdoc] else [])

/-! xnat-extract.py: data model, effect trace, exporters. -/

/-- The DICOM header fields read by `export_series`. -/
structure Header where
  seriesDescription : String
  seriesNumber : Nat
deriving DecidableEq

/-- Modelled from the spec: `datman.scanid` is not under src/; the spec
describes a scan identifier as a "structured subject/session code parsed
from a folder name" with study, site, subject and session fields, whose
string form is the original underscore-joined folder name (for example
SPN01_CMH_0001_01_01). -/
structure ScanId where
  study : String
  site : String
  subject : String
  timepoint : String
  session : String
deriving DecidableEq

/-- Modelled from the spec: `datman.scanid.parse` / `is_scanid` (not under
src/) accept exactly the underscore-joined five-field folder names of the
data naming scheme; `is_scanid` is `parse` succeeding. -/
def parseScanId (s : String) : Option ScanId :=
  match splitChar '_' s with
  | [a, b, c, d, e] => some ⟨a, b, c, d, e⟩
  | _ => none

/-- Python `str(scanid)`: the underscore-joined identifier. -/
def ScanId.toStr (s : ScanId) : String :=
  strJoin "_" [s.study, s.site, s.subject, s.timepoint, s.session]

/-- Modelled from the spec: `dm.utils.mangle` is not under src/ and the
spec does not define the mangling beyond showing that the example
description Sag-T1-BRAVO appears verbatim in output filenames; modelled as
replacing every character outside letters, digits, '.', '+', '-' by '-'. -/
def mangle (s : String) : String :=
  ⟨s.toList.map (fun c =>
    if c.isAlphanum || c = '.' || c = '-' || c = '+' then c else '-')⟩

/-- Result of tag resolution: Python `None`, a single tag string, or the
list returned when several patterns match. -/
inductive TagResult where
  | noTag
  | tag (t : String)
  | ambiguous (ts : List String)
deriving DecidableEq

/-- Modelled from the spec: `dm.utils.guess_tag` is not under src/. Per the
spec, resolution matches the mangled description against every pattern of
the mapping (substring semantics; the regex semantics of the claims'
literal patterns coincide with substring matching) and "each series
resolves to at most one tag; ambiguous (list-valued) or empty tag
resolution is a per-series error": no match yields None, a unique match
yields its tag, several matches yield the list of matched tags (the
caller `export_series` checks `type(tag) is list`). -/
def guess_tag (descr : String) (tagmap : List (String × String)) : TagResult :=
  let ms := (tagmap.filter (fun pt => strContains descr pt.1)).map (·.2)
  match ms with
  | [] => TagResult.noTag
  | [t] => TagResult.tag t
  | _ => TagResult.ambiguous ms

/-- One external side effect of the extractor: a real `os.makedirs`, a real
`os.system` invocation, a `tempfile.mkdtemp`, or a printed
error/log/debug line (the `--debug` gating of printed debug lines is not
modelled; no claim concerns diagnostic printing). -/
inductive Effect where
  | makedirs (path : String)
  | system (cmd : String)
  | mkdtemp (path : String)
  | error (msg : String)
  | log (msg : String)
  | debug (msg : String)
deriving DecidableEq

/-- Effects that change filesystem state or start an external process. -/
def isFsEffect : Effect → Bool
  | .makedirs _ => true
  | .system _ => true
  | .mkdtemp _ => true
  | _ => false

/-- src/bin/xnat-extract.py lines 137-139: the `makedirs` wrapper logs and,
unless dry-run, creates the directory. -/
def makedirs (dryrun : Bool) (path : String) : List Effect :=
  Effect.debug ("makedirs: " ++ path) :: if dryrun then [] else [Effect.makedirs path]

/-- src/bin/xnat-extract.py lines 141-143: the `system` wrapper logs and,
unless dry-run, runs the command. -/
def system (dryrun : Bool) (cmd : String) : List Effect :=
  Effect.debug ("exec: " ++ cmd) :: if dryrun then [] else [Effect.system cmd]

/-- Modelled from the spec: `dm.utils.get_extension` is not under src/; it
returns the filename extension, treating the spec's `.nii.gz` double
extension as a unit. -/
def get_extension (p : String) : String :=
  if strEndsWith p ".nii.gz" then ".nii.gz"
  else "." ++ (splitChar '.' p).getLastD ""

/-- One row of the export-info table, in file order: the pattern and tag
columns plus the per-column cell values of the `export_<fmt>` columns. -/
structure ExportRow where
  pattern : String
  tag : String
  flags : List (String × String)

/-- The loaded export-info table: its column names (in column order) and
its rows (in file order). -/
structure ExportInfo where
  columns : List String
  rows : List ExportRow

/-- src/bin/xnat-extract.py lines 244-254: formats are the `export_`-prefixed
column names, keeping `c.split("_")[1]`. -/
def get_formats_from_exportinfo (t : ExportInfo) : List String :=
  (t.columns.filter (fun c => strStartsWith c "export_")).map
    (fun c => (splitChar '_' c).getD 1 "")

/-- src/bin/xnat-extract.py line 324: the keys of the `exporters` dispatch
dict. -/
def exporters : List String := ["mnc", "nii", "nrrd"]

/-- src/bin/xnat-extract.py line 195: requested formats with no registered
exporter. -/
def unknownFmts (t : ExportInfo) : List String :=
  (get_formats_from_exportinfo t).filter (fun fmt => !(exporters.contains fmt))

/-- src/bin/xnat-extract.py lines 266-280: `export_mnc_command`. Skips when
the output file exists, else invokes dcm2mnc. -/
def export_mnc_command (dryrun : Bool) (fs : String → Bool)
    (seriesdir outputdir filestem : String) : List Effect :=
  let outputfile := pathJoin outputdir filestem ++ ".mnc"
  if fs outputfile then
    [Effect.debug (seriesdir ++ ": output " ++ outputfile ++ " exists. skipping.")]
  else
    Effect.debug (seriesdir ++ ": exporting to " ++ outputfile)
    :: system dryrun ("dcm2mnc -fname " ++ filestem ++ " -dname \"\" "
        ++ seriesdir ++ "/* " ++ outputdir)

/-- src/bin/xnat-extract.py lines 282-304: `export_nii_command`. Skips when
the output file exists; otherwise makes a real temp directory (NOT guarded
by dry-run), runs dcm2nii into it, then moves each produced file (whose
basename does not start with "o" or "co") into place. `tmpdir` is the name
`tempfile.mkdtemp` returns and `tmpfiles` the names `glob` finds in it
after conversion; under dry-run the converter never ran, so the fresh temp
directory is empty. -/
def export_nii_command (dryrun : Bool) (fs : String → Bool)
    (tmpdir : String) (tmpfiles : List String)
    (seriesdir outputdir filestem : String) : List Effect :=
  let outputfile := pathJoin outputdir filestem ++ ".nii.gz"
  if fs outputfile then
    [Effect.debug (seriesdir ++ ": output " ++ outputfile ++ " exists. skipping.")]
  else
    Effect.debug (seriesdir ++ ": exporting to " ++ outputfile)
    :: Effect.mkdtemp tmpdir
    :: system dryrun ("dcm2nii -x n -g y  -o " ++ tmpdir ++ " " ++ seriesdir)
    ++ ((if dryrun then [] else tmpfiles).map (fun f =>
          let bn := basename f
          if strStartsWith bn "o" || strStartsWith bn "co" then []
          else system dryrun ("mv " ++ f ++ " " ++ outputdir ++ "/" ++ filestem
              ++ get_extension f))).flatten

/-- src/bin/xnat-extract.py lines 306-322: `export_nrrd_command`. Skips when
the output file exists, else invokes DWIConvert. -/
def export_nrrd_command (dryrun : Bool) (fs : String → Bool)
    (seriesdir outputdir filestem : String) : List Effect :=
  let outputfile := pathJoin outputdir filestem ++ ".nrrd"
  if fs outputfile then
    [Effect.debug (seriesdir ++ ": output " ++ outputfile ++ " exists. skipping.")]
  else
    Effect.debug (seriesdir ++ ": exporting to " ++ outputfile)
    :: system dryrun ("DWIConvert -i " ++ seriesdir
        ++ " --conversionMode DicomToNrrd -o " ++ filestem
        ++ ".nrrd --outputDirectory " ++ outputdir)

/-- The `exporters` dispatch `exporters[fmt](seriesdir,outputdir,filestem)`. -/
def runExporter (fmt : String) (dryrun : Bool) (fs : String → Bool)
    (tmpdir : String) (tmpfiles : List String)
    (seriesdir outputdir filestem : String) : List Effect :=
  if fmt = "mnc" then export_mnc_command dryrun fs seriesdir outputdir filestem
  else if fmt = "nii" then
    export_nii_command dryrun fs tmpdir tmpfiles seriesdir outputdir filestem
  else if fmt = "nrrd" then export_nrrd_command dryrun fs seriesdir outputdir filestem
  else []

/-- src/bin/xnat-extract.py lines 216-218: the tag resolution performed by
`export_series`: the ordered pattern/tag columns are collapsed into a dict
and handed to `guess_tag`. -/
def series_tag (exportinfo : ExportInfo) (mangled_descr : String) : TagResult :=
  guess_tag mangled_descr
    (dictOfPairs (exportinfo.rows.map (fun r => (r.pattern, r.tag))))

/-- src/bin/xnat-extract.py lines 213-230: the output file stem
`"_".join([str(scanid),tag,series,mangled_descr])` with the series number
zero-filled to two digits. -/
def series_filestem (scanid : ScanId) (tag : String) (header : Header) : String :=
  strJoin "_" [ScanId.toStr scanid, tag,
    zfill 2 (toString header.seriesNumber), mangle header.seriesDescription]

/-- Textual rendering of a tag resolution result for the error line
(Python renders None and lists; the exact rendering is immaterial). -/
def TagResult.render : TagResult → String
  | .noTag => "None"
  | .tag t => t
  | .ambiguous ts => "[" ++ strJoin "," ts ++ "]"

/-- src/bin/xnat-extract.py lines 209-241: `export_series`. Resolves the
tag; on falsy or list-valued resolution prints an error and exports
nothing; otherwise, for each requested format whose `export_<fmt>` cell is
not "no" on every row of the tag, ensures the per-format/per-subject
output directory exists and dispatches the exporter. -/
def export_series (dryrun : Bool) (fs : String → Bool)
    (tmpdir : String) (tmpfiles : List String) (exportinfo : ExportInfo)
    (seriesdir : String) (header : Header) (formats : List String)
    (scanid : ScanId) (exportpath : String) : List Effect :=
  let description := header.seriesDescription
  let mangled_descr := mangle description
  let series := zfill 2 (toString header.seriesNumber)
  let tag := series_tag exportinfo mangled_descr
  let dbg := [Effect.debug (seriesdir ++ ": description = " ++ description
      ++ ", series = " ++ series ++ ", tag = " ++ tag.render)]
  match tag with
  | TagResult.noTag => dbg ++ [Effect.error (seriesdir
      ++ ": Unknown series tag for description: " ++ description
      ++ ", tag = " ++ TagResult.noTag.render)]
  | TagResult.ambiguous ts => dbg ++ [Effect.error (seriesdir
      ++ ": Unknown series tag for description: " ++ description
      ++ ", tag = " ++ (TagResult.ambiguous ts).render)]
  | TagResult.tag t =>
    if t = "" then dbg ++ [Effect.error (seriesdir
        ++ ": Unknown series tag for description: " ++ description
        ++ ", tag = " ++ t)]
    else
      let tag_exportinfo := exportinfo.rows.filter (fun r => r.tag = t)
      let subjectid := strJoin "_" [scanid.study, scanid.site, scanid.subject]
      let filestem := series_filestem scanid t header
      dbg ++ (formats.map (fun fmt =>
        if tag_exportinfo.all
            (fun r => (dictGet r.flags ("export_" ++ fmt)).getD "" = "no") then
          [Effect.debug (seriesdir ++ ": export_" ++ fmt
              ++ " set to no for tag " ++ t ++ " so skipping")]
        else
          let outputdir := pathJoin (pathJoin exportpath fmt) subjectid
          (if fs outputdir then [] else makedirs dryrun outputdir)
          ++ runExporter fmt dryrun fs tmpdir tmpfiles seriesdir outputdir
              filestem)).flatten

/-- src/bin/xnat-extract.py lines 256-264: `export_resources`. Always
rsyncs the RESOURCES folder, creating the destination if absent. -/
def export_resources (dryrun : Bool) (fs : String → Bool)
    (archivepath exportpath : String) (scanid : ScanId) : List Effect :=
  Effect.log ("Exporting non-dicom stuff from " ++ archivepath)
  :: (let sourcedir := pathJoin archivepath "RESOURCES"
      let outputdir := pathJoin (pathJoin exportpath "RESOURCES") (ScanId.toStr scanid)
      (if fs outputdir then [] else makedirs dryrun outputdir)
      ++ system dryrun ("rsync -a " ++ sourcedir ++ "/ " ++ outputdir ++ "/"))

/-- Whether `extract_archive` returned normally or raised: the unused
assignment `study_headers = headers.values()[0]` (line 193) raises
IndexError when the header dict is empty, aborting the whole run. -/
inductive ArchiveResult where
  | done
  | crashed
deriving DecidableEq

/-- src/bin/xnat-extract.py lines 161-207: `extract_archive`. `fs` models
`os.path.isdir`/`os.path.exists`; `headers` models the result of
`dm.utils.get_archive_headers` (a DICOM header-reading utility not under
src/, modelled from the spec as an oracle listing each series directory
and its header, in iteration order). -/
def extract_archive (dryrun : Bool) (fs : String → Bool)
    (tmpdir : String) (tmpfiles : List String)
    (headers : List (String × Header)) (exportinfo : ExportInfo)
    (archivepath exportpath : String) : ArchiveResult × List Effect :=
  match parseScanId (basename archivepath) with
  | none => (ArchiveResult.done, [Effect.error (archivepath
      ++ " folder is not named according to the data naming policy. Skipping")])
  | some scanid =>
    let scanspath := pathJoin archivepath "SCANS"
    if !(fs scanspath) then
      (ArchiveResult.done, [Effect.error (scanspath
          ++ " does not exist. Not an XNAT archive. Skipping.")])
    else
      match headers with
      | [] => (ArchiveResult.crashed, [])
      | _ :: _ =>
        let formats := get_formats_from_exportinfo exportinfo
        let unknown := unknownFmts exportinfo
        if unknown.length > 0 then
          (ArchiveResult.done, [Effect.error ("Unknown formats requested for export of "
              ++ archivepath ++ ": " ++ strJoin "," unknown ++ ". Skipping.")])
        else
          (ArchiveResult.done,
            Effect.log ("Exporting series from " ++ archivepath)
            :: (headers.map (fun ph => export_series dryrun fs tmpdir tmpfiles
                  exportinfo ph.1 ph.2 formats scanid exportpath)).flatten
            ++ export_resources dryrun fs archivepath exportpath scanid)

/-- src/bin/xnat-extract.py lines 157-158: the main loop runs
`extract_archive` on each listed archive in order; an uncaught exception
(the crash above) aborts the remainder of the run. Each archive is paired
with its header oracle. -/
def run_archives (dryrun : Bool) (fs : String → Bool)
    (tmpdir : String) (tmpfiles : List String) (exportinfo : ExportInfo)
    (exportpath : String) :
    List (String × List (String × Header)) → List (String × ArchiveResult × List Effect)
  | [] => []
  | (a, hs) :: rest =>
    let r := extract_archive dryrun fs tmpdir tmpfiles hs exportinfo a exportpath
    match r.1 with
    | ArchiveResult.crashed => [(a, r)]
    | ArchiveResult.done =>
      (a, r) :: run_archives dryrun fs tmpdir tmpfiles exportinfo exportpath rest

/-! Concrete inputs used by witnesses and counterexamples. -/

/-- List-to-forest conversion for writing example trees. -/
def DForest.ofList : List DTree → DForest
  | [] => DForest.nil
  | t :: ts => DForest.cons t (DForest.ofList ts)

/-- An export-info table requesting the unregistered format xyz. -/
def infoXyz : ExportInfo :=
  ⟨["pattern", "tag", "export_xyz"], [⟨"T1", "T1", [("export_xyz", "yes")]⟩]⟩

/-- An export-info table with a single T1 pattern exported to nii. -/
def infoNii : ExportInfo :=
  ⟨["pattern", "tag", "export_nii"], [⟨"T1", "T1", [("export_nii", "yes")]⟩]⟩

/-! Claim theorems. -/

/-- C2: for every series and every enabled format, if the output file
`<outputdir>/<filestem>.<ext>` already exists before the exporter runs,
that exporter invokes no external converter and creates no files or
directories for that series/format. -/
theorem c2_exporters_skip_existing (dryrun : Bool) (fs : String → Bool)
    (tmpdir : String) (tmpfiles : List String)
    (seriesdir outputdir filestem : String) :
    (fs (pathJoin outputdir filestem ++ ".mnc") = true →
      (export_mnc_command dryrun fs seriesdir outputdir filestem).filter isFsEffect = [])
  ∧ (fs (pathJoin outputdir filestem ++ ".nii.gz") = true →
      (export_nii_command dryrun fs tmpdir tmpfiles seriesdir outputdir
        filestem).filter isFsEffect = [])
  ∧ (fs (pathJoin outputdir filestem ++ ".nrrd") = true →
      (export_nrrd_command dryrun fs seriesdir outputdir filestem).filter isFsEffect = []) := by
  refine ⟨fun h => ?_, fun h => ?_, fun h => ?_⟩ <;>
    simp [export_mnc_command, export_nii_command, export_nrrd_command, h, isFsEffect]

/-- Witness for C2 at a filesystem where every output already exists. -/
theorem c2_exporters_skip_existing_witness :
    (export_mnc_command false (fun _ => true) "s" "o" "f").filter isFsEffect = []
  ∧ (export_nii_command false (fun _ => true) "/t" [] "s" "o" "f").filter isFsEffect = []
  ∧ (export_nrrd_command false (fun _ => true) "s" "o" "f").filter isFsEffect = [] :=
  let T := c2_exporters_skip_existing false (fun _ => true) "/t" [] "s" "o" "f"
  ⟨T.1 rfl, T.2.1 rfl, T.2.2 rfl⟩

/-- C9: the output file stem is the scan id, tag, two-digit zero-padded
series number and mangled description joined by underscores; for scan
SPN01_CMH_0001_01_01, tag T1, series 11, description Sag-T1-BRAVO the
NIfTI filename is exactly SPN01_CMH_0001_01_01_T1_11_Sag-T1-BRAVO.nii.gz,
and the nii exporter consults exactly that path. -/
theorem c9_output_filename :
    series_filestem ⟨"SPN01", "CMH", "0001", "01", "01"⟩ "T1" ⟨"Sag-T1-BRAVO", 11⟩
      = "SPN01_CMH_0001_01_01_T1_11_Sag-T1-BRAVO"
  ∧ pathJoin "data/nii/SPN01_CMH_0001"
      (series_filestem ⟨"SPN01", "CMH", "0001", "01", "01"⟩ "T1" ⟨"Sag-T1-BRAVO", 11⟩)
      ++ ".nii.gz"
      = "data/nii/SPN01_CMH_0001/SPN01_CMH_0001_01_01_T1_11_Sag-T1-BRAVO.nii.gz"
  ∧ export_nii_command false
      (fun s => s == "data/nii/SPN01_CMH_0001/SPN01_CMH_0001_01_01_T1_11_Sag-T1-BRAVO.nii.gz")
      "/t" [] "sdir" "data/nii/SPN01_CMH_0001"
      (series_filestem ⟨"SPN01", "CMH", "0001", "01", "01"⟩ "T1" ⟨"Sag-T1-BRAVO", 11⟩)
      = [Effect.debug ("sdir: output data/nii/SPN01_CMH_0001/SPN01_CMH_0001_01_01_T1_11_Sag-T1-BRAVO.nii.gz exists. skipping.")]
  ∧ ∀ (s : ScanId) (tag : String) (h : Header),
      series_filestem s tag h = strJoin "_" [ScanId.toStr s, tag,
        zfill 2 (toString h.seriesNumber), mangle h.seriesDescription] :=
  ⟨by decide, by decide, by decide, fun s tag h => rfl⟩

/-- C8: a timepoint whose derived key qc_<timepoint>.html is absent from
the checklist mapping is reported exactly as a missing checklist entry and
receives no further checks; in particular it is never reported as not
signed off, whatever the filesystem, flags and modification times say. -/
theorem c8_no_checklist_entry (checklist : Checklist)
    (projectdir timepointdir : String) (fs : String → Bool) (showNewer : Bool)
    (dataMtime : Int) (getmtime : String → Int) (newerFiles : List String)
    (hpha : strContains timepointdir "_PHA_" = false)
    (habs : dictGet checklist ("qc_" ++ basename timepointdir ++ ".html") = none) :
    auditTimepoint checklist projectdir timepointdir fs showNewer dataMtime
      getmtime newerFiles = [Report.noChecklistEntry timepointdir]
  ∧ ∀ q, Report.notSignedOff q ∉
      auditTimepoint checklist projectdir timepointdir fs showNewer dataMtime
        getmtime newerFiles := by
  have h1 : auditTimepoint checklist projectdir timepointdir fs showNewer
      dataMtime getmtime newerFiles = [Report.noChecklistEntry timepointdir] := by
    unfold auditTimepoint
    rw [hpha]
    simp [habs]
  exact ⟨h1, fun q => by rw [h1]; simp⟩

/-- Witness for C8: a session absent from the checklist even though its QC
document exists on disk. -/
theorem c8_no_checklist_entry_witness :
    auditTimepoint [("qc_SPN01_CMH_0001_01.html", ["signed"])] "/proj"
      "/proj/data/nii/SPN01_CMH_0002_01" (fun _ => true) false 0 (fun _ => 0) []
      = [Report.noChecklistEntry "/proj/data/nii/SPN01_CMH_0002_01"]
  ∧ ∀ q, Report.notSignedOff q ∉
      auditTimepoint [("qc_SPN01_CMH_0001_01.html", ["signed"])] "/proj"
        "/proj/data/nii/SPN01_CMH_0002_01" (fun _ => true) false 0 (fun _ => 0) [] :=
  c8_no_checklist_entry [("qc_SPN01_CMH_0001_01.html", ["signed"])] "/proj"
    "/proj/data/nii/SPN01_CMH_0002_01" (fun _ => true) false 0 (fun _ => 0) []
    (by decide) (by decide)

/-- C5 (code bug evidence): under dry-run, extracting an archive with one
nii-enabled series whose output does not yet exist still performs a real
`tempfile.mkdtemp` (src/bin/xnat-extract.py line 296 is not guarded by
DRYRUN), so the filesystem is changed: the trace of filesystem effects is
exactly the temp directory creation. -/
theorem c5_dryrun_still_creates_tempdir :
    (extract_archive true (fun s => s == "arc/SPN01_CMH_0001_01_01/SCANS")
      "/tmp/tmpQ" [] [("arc/SPN01_CMH_0001_01_01/SCANS/0001", ⟨"Sag-T1-BRAVO", 11⟩)]
      infoNii "arc/SPN01_CMH_0001_01_01" "data").2.filter isFsEffect
      = [Effect.mkdtemp "/tmp/tmpQ"] := by decide

/-! Tag resolution (C1). -/

theorem dictSet_append_of_not_mem {α : Type} (acc : List (String × α))
    (k : String) (v : α) (h : ∀ av ∈ acc, av.1 ≠ k) :
    dictSet acc k v = acc ++ [(k, v)] := by
  induction acc with
  | nil => simp [dictSet]
  | cons kv rest ih =>
    have hk : kv.1 ≠ k := h kv (List.mem_cons_self kv rest)
    simp only [dictSet, if_neg hk, List.cons_append, List.cons.injEq, true_and]
    exact ih (fun av hav => h av (List.mem_cons_of_mem kv hav))

theorem foldl_dictSet_eq_append {α : Type} :
    ∀ (l acc : List (String × α)),
      (∀ kv ∈ l, ∀ av ∈ acc, av.1 ≠ kv.1) →
      (l.map Prod.fst).Nodup →
      l.foldl (fun a kv => dictSet a kv.1 kv.2) acc = acc ++ l := by
  intro l
  induction l with
  | nil => intro acc _ _; simp
  | cons kv rest ih =>
    intro acc hdisj hnd
    simp only [List.foldl_cons]
    rw [dictSet_append_of_not_mem acc kv.1 kv.2
      (fun av hav => hdisj kv (List.mem_cons_self kv rest) av hav)]
    simp only [List.map_cons, List.nodup_cons] at hnd
    rw [ih (acc ++ [(kv.1, kv.2)])
      (by
        intro kv' hkv' av hav
        rcases List.mem_append.mp hav with h | h
        · exact hdisj kv' (List.mem_cons_of_mem kv hkv') av h
        · simp only [List.mem_singleton] at h
          subst h
          intro hc
          exact hnd.1 (hc ▸ List.mem_map_of_mem Prod.fst hkv'))
      hnd.2]
    simp

/-- With pairwise-distinct keys, building a Python dict from the pairs
keeps exactly those pairs. -/
theorem dictOfPairs_eq_self {α : Type} (l : List (String × α))
    (h : (l.map Prod.fst).Nodup) : dictOfPairs l = l := by
  unfold dictOfPairs
  rw [foldl_dictSet_eq_append l [] (by intro kv _ av hav; simp at hav) h]
  simp

/-- C1 counterexample: for the table [(Sag, SAG), (T1, T1)] and description
Sag-T1-BRAVO, both patterns match, so resolution in export_series yields
the list of matched tags, not the tag SAG of the first matching pattern in
table order as the claim states. -/
theorem c1_first_match_counterexample :
    series_tag ⟨["pattern", "tag"], [⟨"Sag", "SAG", []⟩, ⟨"T1", "T1", []⟩]⟩
      "Sag-T1-BRAVO" = TagResult.ambiguous ["SAG", "T1"]
  ∧ series_tag ⟨["pattern", "tag"], [⟨"Sag", "SAG", []⟩, ⟨"T1", "T1", []⟩]⟩
      "Sag-T1-BRAVO" ≠ TagResult.tag "SAG" :=
  ⟨by decide, by decide⟩

/-- C1 (amended): tag resolution collects every pattern of the table that
matches the mangled description; it succeeds exactly when one pattern
matches, returning that tag (so table order is immaterial); when several
match it returns the collection and export_series reports an error and
exports nothing for the series. For the table [(T1, T1), (T1w, T1w)] and
description Sag-T1-BRAVO the resolved tag is T1, the unique match. -/
theorem c1_unique_match_resolution :
    (∀ (info : ExportInfo) (descr t : String),
      (info.rows.map ExportRow.pattern).Nodup →
      (info.rows.filter (fun r => strContains descr r.pattern)).map ExportRow.tag = [t] →
      series_tag info descr = TagResult.tag t)
  ∧ series_tag ⟨["pattern", "tag"], [⟨"T1", "T1", []⟩, ⟨"T1w", "T1w", []⟩]⟩
      "Sag-T1-BRAVO" = TagResult.tag "T1"
  ∧ (∀ (dryrun : Bool) (fs : String → Bool) (tmpdir : String)
      (tmpfiles : List String) (exportinfo : ExportInfo) (seriesdir : String)
      (header : Header) (formats : List String) (scanid : ScanId)
      (exportpath : String),
      (∃ ts, series_tag exportinfo (mangle header.seriesDescription)
          = TagResult.ambiguous ts) →
      (export_series dryrun fs tmpdir tmpfiles exportinfo seriesdir header
        formats scanid exportpath).filter isFsEffect = []) := by
  refine ⟨?_, by decide, ?_⟩
  · intro info descr t hnd hms
    unfold series_tag guess_tag
    rw [dictOfPairs_eq_self _
      (by simpa [List.map_map, Function.comp] using hnd)]
    rw [List.filter_map, List.map_map]
    have : ((fun pt : String × String => strContains descr pt.1) ∘
        fun r : ExportRow => (r.pattern, r.tag)) =
        fun r : ExportRow => strContains descr r.pattern := rfl
    rw [this]
    have h2 : ((fun pt : String × String => pt.2) ∘
        fun r : ExportRow => (r.pattern, r.tag)) = ExportRow.tag := rfl
    rw [h2, hms]
  · rintro dryrun fs tmpdir tmpfiles exportinfo seriesdir header formats
      scanid exportpath ⟨ts, hts⟩
    simp [export_series, hts, isFsEffect]

/-- Witness for C1: a unique-match resolution and an ambiguous series that
exports nothing, both obtained from the theorem at concrete inputs. -/
theorem c1_unique_match_resolution_witness :
    series_tag ⟨["pattern", "tag"], [⟨"T2", "T2", []⟩, ⟨"FLAIR", "FLAIR", []⟩]⟩
      "Ax-T2-FSE" = TagResult.tag "T2"
  ∧ (export_series false (fun _ => false) "/t" []
      ⟨["pattern", "tag"], [⟨"Sag", "SAG", []⟩, ⟨"T1", "T1", []⟩]⟩
      "sdir" ⟨"Sag-T1-BRAVO", 11⟩ ["nii"] ⟨"SPN01", "CMH", "0001", "01", "01"⟩
      "data").filter isFsEffect = [] :=
  ⟨c1_unique_match_resolution.1
      ⟨["pattern", "tag"], [⟨"T2", "T2", []⟩, ⟨"FLAIR", "FLAIR", []⟩]⟩
      "Ax-T2-FSE" "T2" (by decide) (by decide),
   c1_unique_match_resolution.2.2 false (fun _ => false) "/t" []
      ⟨["pattern", "tag"], [⟨"Sag", "SAG", []⟩, ⟨"T1", "T1", []⟩]⟩
      "sdir" ⟨"Sag-T1-BRAVO", 11⟩ ["nii"] ⟨"SPN01", "CMH", "0001", "01", "01"⟩
      "data" ⟨["SAG", "T1"], by decide⟩⟩

/-! Archive-level error handling (C10, C3). -/

/-- C10 counterexample: an archive with a valid name and a SCANS folder but
an empty header dictionary, whose export-info table requests the unknown
format xyz: extract_archive raises IndexError at the dead assignment
`study_headers = headers.values()[0]` (line 193) before the format check,
printing no error at all, instead of returning after printing an error. -/
theorem c10_crash_counterexample :
    extract_archive false (fun s => s == "xarc/SPN03_CMH_0003_01_01/SCANS")
      "/t" [] [] infoXyz "xarc/SPN03_CMH_0003_01_01" "data"
      = (ArchiveResult.crashed, []) := by decide

/-- C10 (amended): an archive whose basename does not parse, or which lacks
a SCANS directory, or (provided header reading finds at least one series)
whose export-info table requests an unknown format, makes extract_archive
return after printing exactly one error line, with no directory created
and no external process run; with an empty header dictionary the
unknown-format case instead raises before printing. -/
theorem c10_archive_error_is_pure (dryrun : Bool) (fs : String → Bool)
    (tmpdir : String) (tmpfiles : List String)
    (headers : List (String × Header)) (exportinfo : ExportInfo)
    (archivepath exportpath : String)
    (h : parseScanId (basename archivepath) = none
       ∨ fs (pathJoin archivepath "SCANS") = false
       ∨ (headers ≠ [] ∧ unknownFmts exportinfo ≠ [])) :
    ∃ m, extract_archive dryrun fs tmpdir tmpfiles headers exportinfo
      archivepath exportpath = (ArchiveResult.done, [Effect.error m]) := by
  rcases h with h1 | h2 | ⟨h3, h4⟩
  · exact ⟨archivepath
      ++ " folder is not named according to the data naming policy. Skipping",
      by simp [extract_archive, h1]⟩
  · cases hp : parseScanId (basename archivepath) with
    | none => exact ⟨archivepath
        ++ " folder is not named according to the data naming policy. Skipping",
        by simp [extract_archive, hp]⟩
    | some sid => exact ⟨pathJoin archivepath "SCANS"
        ++ " does not exist. Not an XNAT archive. Skipping.",
        by simp [extract_archive, hp, h2]⟩
  · cases hp : parseScanId (basename archivepath) with
    | none => exact ⟨archivepath
        ++ " folder is not named according to the data naming policy. Skipping",
        by simp [extract_archive, hp]⟩
    | some sid =>
      cases hf : fs (pathJoin archivepath "SCANS") with
      | false => exact ⟨pathJoin archivepath "SCANS"
          ++ " does not exist. Not an XNAT archive. Skipping.",
          by simp [extract_archive, hp, hf]⟩
      | true =>
        cases headers with
        | nil => exact absurd rfl h3
        | cons hd tl =>
          have hlen : 0 < (unknownFmts exportinfo).length := List.length_pos.mpr h4
          exact ⟨"Unknown formats requested for export of " ++ archivepath
              ++ ": " ++ strJoin "," (unknownFmts exportinfo) ++ ". Skipping.",
            by simp [extract_archive, hp, hf, hlen]⟩

/-- Witness for C10 at an invalidly named archive. -/
theorem c10_archive_error_is_pure_witness :
    ∃ m, extract_archive false (fun _ => true) "/t" [] [] infoXyz
      "badname" "data" = (ArchiveResult.done, [Effect.error m]) :=
  c10_archive_error_is_pure false (fun _ => true) "/t" [] [] infoXyz
    "badname" "data" (Or.inl (by decide))

/-- extract_archive returns normally whenever the header oracle is
nonempty (the IndexError of line 193 is the only way it can abort). -/
theorem extract_archive_done (dryrun : Bool) (fs : String → Bool)
    (tmpdir : String) (tmpfiles : List String)
    (headers : List (String × Header)) (exportinfo : ExportInfo)
    (archivepath exportpath : String) (h : headers ≠ []) :
    (extract_archive dryrun fs tmpdir tmpfiles headers exportinfo
      archivepath exportpath).1 = ArchiveResult.done := by
  cases hp : parseScanId (basename archivepath) with
  | none => simp [extract_archive, hp]
  | some sid =>
    cases hf : fs (pathJoin archivepath "SCANS") with
    | false => simp [extract_archive, hp, hf]
    | true =>
      cases headers with
      | nil => exact absurd rfl h
      | cons hd tl =>
        by_cases hu : (unknownFmts exportinfo).length > 0
        · simp [extract_archive, hp, hf, hu]
        · simp [extract_archive, hp, hf, hu]

/-- The main loop processes every archive when no archive crashes. -/
theorem run_archives_all_processed (dryrun : Bool) (fs : String → Bool)
    (tmpdir : String) (tmpfiles : List String) (exportinfo : ExportInfo)
    (exportpath : String) :
    ∀ (archives : List (String × List (String × Header))),
      (∀ p ∈ archives, p.2 ≠ []) →
      (run_archives dryrun fs tmpdir tmpfiles exportinfo exportpath
        archives).map Prod.fst = archives.map Prod.fst := by
  intro archives
  induction archives with
  | nil => intro _; simp [run_archives]
  | cons a rest ih =>
    intro h
    have hd := extract_archive_done dryrun fs tmpdir tmpfiles a.2 exportinfo
      a.1 exportpath (h a (List.mem_cons_self a rest))
    simp only [run_archives, hd, List.map_cons]
    rw [ih (fun p hp => h p (List.mem_cons_of_mem a hp))]

/-- C3 counterexample: the export-info table requests the unknown format
xyz, but the first archive (valid name, SCANS present, empty header
dictionary) crashes the run at line 193 before the format check, printing
no error, and the second listed archive is never processed. -/
theorem c3_crash_stops_run_counterexample :
    (run_archives false
        (fun s => s == "xa/SPN01_CMH_0001_01_01/SCANS"
          || s == "xa/SPN02_CMH_0002_01_01/SCANS") "/t" [] infoXyz "data"
        [("xa/SPN01_CMH_0001_01_01", []),
         ("xa/SPN02_CMH_0002_01_01",
          [("xa/SPN02_CMH_0002_01_01/SCANS/0001", ⟨"Sag-T1-BRAVO", 11⟩)])]).map
      Prod.fst = ["xa/SPN01_CMH_0001_01_01"]
  ∧ extract_archive false
      (fun s => s == "xa/SPN01_CMH_0001_01_01/SCANS"
        || s == "xa/SPN02_CMH_0002_01_01/SCANS") "/t" [] [] infoXyz
      "xa/SPN01_CMH_0001_01_01" "data" = (ArchiveResult.crashed, []) :=
  ⟨by decide, by decide⟩

/-- C3 (amended): when the export-info table declares a format with no
registered exporter, an archive with a valid name, a SCANS folder and at
least one series header makes extract_archive print the unknown-format
error and return with nothing exported and no resource copied (its whole
effect trace is that one error line); and the main loop still processes
every listed archive provided each archive yields at least one series
header (an archive with an empty header dictionary instead raises
IndexError at line 193, aborting the rest of the run). -/
theorem c3_unknown_format_aborts_archive_only (dryrun : Bool)
    (fs : String → Bool) (tmpdir : String) (tmpfiles : List String)
    (exportinfo : ExportInfo) (exportpath archivepath : String)
    (headers : List (String × Header))
    (archives : List (String × List (String × Header)))
    (hparse : (parseScanId (basename archivepath)).isSome)
    (hscans : fs (pathJoin archivepath "SCANS") = true)
    (hhdrs : headers ≠ [])
    (hunk : unknownFmts exportinfo ≠ [])
    (hall : ∀ p ∈ archives, p.2 ≠ []) :
    extract_archive dryrun fs tmpdir tmpfiles headers exportinfo archivepath
      exportpath
      = (ArchiveResult.done,
         [Effect.error ("Unknown formats requested for export of "
           ++ archivepath ++ ": " ++ strJoin "," (unknownFmts exportinfo)
           ++ ". Skipping.")])
  ∧ (run_archives dryrun fs tmpdir tmpfiles exportinfo exportpath
      archives).map Prod.fst = archives.map Prod.fst := by
  constructor
  · cases hp : parseScanId (basename archivepath) with
    | none => rw [hp] at hparse; exact absurd hparse (by simp)
    | some sid =>
      cases headers with
      | nil => exact absurd rfl hhdrs
      | cons hd tl =>
        have hlen : 0 < (unknownFmts exportinfo).length := List.length_pos.mpr hunk
        simp [extract_archive, hp, hscans, hlen]
  · exact run_archives_all_processed dryrun fs tmpdir tmpfiles exportinfo
      exportpath archives hall

/-- Witness for C3: the second archive of the counterexample scenario, now
with a nonempty header oracle, and a one-archive run. -/
theorem c3_unknown_format_aborts_archive_only_witness :
    extract_archive false (fun s => s == "xa/SPN02_CMH_0002_01_01/SCANS")
      "/t" [] [("xa/SPN02_CMH_0002_01_01/SCANS/0001", ⟨"Sag-T1-BRAVO", 11⟩)]
      infoXyz "xa/SPN02_CMH_0002_01_01" "data"
      = (ArchiveResult.done,
         [Effect.error ("Unknown formats requested for export of "
           ++ "xa/SPN02_CMH_0002_01_01" ++ ": "
           ++ strJoin "," (unknownFmts infoXyz) ++ ". Skipping.")])
  ∧ (run_archives false (fun s => s == "xa/SPN02_CMH_0002_01_01/SCANS")
      "/t" [] infoXyz "data"
      [("xa/SPN02_CMH_0002_01_01",
        [("xa/SPN02_CMH_0002_01_01/SCANS/0001", ⟨"Sag-T1-BRAVO", 11⟩)])]).map
      Prod.fst
      = [("xa/SPN02_CMH_0002_01_01",
          [("xa/SPN02_CMH_0002_01_01/SCANS/0001",
            (⟨"Sag-T1-BRAVO", 11⟩ : Header))])].map Prod.fst :=
  c3_unknown_format_aborts_archive_only false
    (fun s => s == "xa/SPN02_CMH_0002_01_01/SCANS") "/t" [] infoXyz "data"
    "xa/SPN02_CMH_0002_01_01"
    [("xa/SPN02_CMH_0002_01_01/SCANS/0001", ⟨"Sag-T1-BRAVO", 11⟩)]
    [("xa/SPN02_CMH_0002_01_01",
      [("xa/SPN02_CMH_0002_01_01/SCANS/0001", ⟨"Sag-T1-BRAVO", 11⟩)])]
    (by decide) (by decide) (by decide) (by decide) (by decide)

/-! Project scanning (C4, C6). -/

theorem sepCount_append (a b : String) :
    sepCount (a ++ b) = sepCount a + sepCount b := by
  show ((a ++ b).data.count '/') = a.data.count '/' + b.data.count '/'
  rw [show (a ++ b).data = a.data ++ b.data from rfl, List.count_append]

theorem sepCount_pathJoin_le (p n : String)
    (h : n.toList.contains '/' = false) :
    sepCount (pathJoin p n) ≤ sepCount p + 1 := by
  have hn : sepCount n = 0 := List.count_eq_zero.mpr (by simpa using h)
  have hone : sepCount "/" = 1 := rfl
  unfold pathJoin
  split_ifs
  · omega
  · omega
  · rw [sepCount_append]; omega
  · rw [sepCount_append, sepCount_append]; omega

mutual
/-- Along the walk, the accumulated paths are exactly the visited
directories holding a checklist, in visit order. -/
theorem walkT_proj_eq (root : String) (maxdepth : Nat) (parent : String) :
    ∀ t : DTree, (walkT root maxdepth parent t).2
      = ((walkT root maxdepth parent t).1.filter
          (fun pr => pr.2.hasChecklist)).map Prod.fst
  | DTree.node n ck ch => by
    cases ck with
    | true => simp [walkT, DTree.hasChecklist]
    | false =>
      have hsub := walkL_proj_eq root maxdepth (pathJoin parent n) ch
      by_cases hd : sepCount (pathJoin parent n) - sepCount root < maxdepth
      · simp [walkT, DTree.hasChecklist, hd, hsub]
      · simp [walkT, DTree.hasChecklist, hd]
/-- Forest version of walkT_proj_eq. -/
theorem walkL_proj_eq (root : String) (maxdepth : Nat) (parent : String) :
    ∀ l : DForest, (walkL root maxdepth parent l).2
      = ((walkL root maxdepth parent l).1.filter
          (fun pr => pr.2.hasChecklist)).map Prod.fst
  | DForest.nil => by simp [walkL]
  | DForest.cons t ts => by
    have h1 := walkT_proj_eq root maxdepth parent t
    have h2 := walkL_proj_eq root maxdepth parent ts
    simp [walkL, List.filter_append, h1, h2]
end

/-- Root-level version of the path/visit correspondence. -/
theorem projWalk_proj_eq (root : String) (maxdepth : Nat) (t : DTree) :
    (projWalk root maxdepth t).2
      = ((projWalk root maxdepth t).1.filter
          (fun pr => pr.2.hasChecklist)).map Prod.fst := by
  cases t with
  | node n ck ch =>
    cases ck with
    | true => simp [projWalk, DTree.hasChecklist, DTree.children]
    | false =>
      have hsub := walkL_proj_eq root maxdepth root ch
      by_cases hd : 0 < maxdepth
      · simpa [projWalk, DTree.hasChecklist, DTree.children, hd] using hsub
      · simp [projWalk, DTree.hasChecklist, DTree.children, hd]

mutual
/-- Every directory visited below a parent within the depth budget stays
within the budget: the walk only descends while the root-relative
separator-count depth is below maxdepth, and one listing step adds at most
one separator (names contain none). -/
theorem walkT_depth (root : String) (maxdepth : Nat) (parent : String) :
    ∀ t : DTree, wfTree t = true →
      sepCount parent - sepCount root < maxdepth →
      ∀ pr ∈ (walkT root maxdepth parent t).1,
        sepCount pr.1 - sepCount root ≤ maxdepth
  | DTree.node n ck ch => by
    intro hwf hp pr hpr
    have hwf2 : n.toList.contains '/' = false ∧ wfForest ch = true := by
      simpa [wfTree, Bool.and_eq_true, Bool.not_eq_true'] using hwf
    obtain ⟨hname, hch⟩ := hwf2
    have hdp : sepCount (pathJoin parent n) ≤ sepCount parent + 1 :=
      sepCount_pathJoin_le parent n hname
    simp only [walkT] at hpr
    rcases List.mem_cons.mp hpr with h | h
    · rw [h]
      show sepCount (pathJoin parent n) - sepCount root ≤ maxdepth
      omega
    · cases ck with
      | true => simp at h
      | false =>
        by_cases hd : sepCount (pathJoin parent n) - sepCount root < maxdepth
        · have h2 : pr ∈ (walkL root maxdepth (pathJoin parent n) ch).1 := by
            simpa [hd] using h
          exact walkL_depth root maxdepth (pathJoin parent n) ch hch hd pr h2
        · simp [hd] at h
/-- Forest version of walkT_depth. -/
theorem walkL_depth (root : String) (maxdepth : Nat) (parent : String) :
    ∀ l : DForest, wfForest l = true →
      sepCount parent - sepCount root < maxdepth →
      ∀ pr ∈ (walkL root maxdepth parent l).1,
        sepCount pr.1 - sepCount root ≤ maxdepth
  | DForest.nil => by
    intro _ _ pr hpr
    simp [walkL] at hpr
  | DForest.cons t ts => by
    intro hwf hp pr hpr
    have h1 : wfTree t = true ∧ wfForest ts = true := by
      simpa [wfForest, Bool.and_eq_true] using hwf
    simp only [walkL] at hpr
    rcases List.mem_append.mp hpr with h | h
    · exact walkT_depth root maxdepth parent t h1.1 hp pr h
    · exact walkL_depth root maxdepth parent ts h1.2 hp pr h
end

/-- Root-level depth bound: every visited directory has root-relative
separator-count depth at most maxdepth. -/
theorem projWalk_depth (root : String) (maxdepth : Nat) (t : DTree)
    (hwf : wfTree t = true) :
    ∀ pr ∈ (projWalk root maxdepth t).1,
      sepCount pr.1 - sepCount root ≤ maxdepth := by
  intro pr hpr
  cases t with
  | node n ck ch =>
    have hch : wfForest ch = true := by
      have h2 : n.toList.contains '/' = false ∧ wfForest ch = true := by
        simpa [wfTree, Bool.and_eq_true, Bool.not_eq_true'] using hwf
      exact h2.2
    simp only [projWalk, DTree.hasChecklist, DTree.children] at hpr
    rcases List.mem_cons.mp hpr with h | h
    · rw [h]
      show sepCount root - sepCount root ≤ maxdepth
      omega
    · cases ck with
      | true => simp at h
      | false =>
        by_cases hd : 0 < maxdepth
        · have h2 : pr ∈ (walkL root maxdepth root ch).1 := by
            simpa [hd] using h
          exact walkL_depth root maxdepth root ch hch (by omega) pr h2
        · simp [hd] at h

/-- C4: among visited directories, get_project_dirs returns exactly those
whose metadata/checklist.csv exists directly beneath them; every visited
directory is within the configured maximum depth below the root (depth
measured, as the code does, as the root-relative path-separator count);
and the walk never descends into a directory identified as a project: a
checklist-bearing directory contributes itself and nothing below it. -/
theorem c4_project_dirs_characterisation (root : String) (maxdepth : Nat)
    (t : DTree) (hwf : wfTree t = true) :
    (∀ p, p ∈ get_project_dirs root maxdepth t ↔
      ∃ pr ∈ (projWalk root maxdepth t).1, pr.1 = p ∧ pr.2.hasChecklist = true)
  ∧ (∀ pr ∈ (projWalk root maxdepth t).1,
      sepCount pr.1 - sepCount root ≤ maxdepth)
  ∧ (∀ (parent n : String) (ch : DForest),
      walkT root maxdepth parent (DTree.node n true ch)
        = ([(pathJoin parent n, DTree.node n true ch)], [pathJoin parent n])) := by
  refine ⟨?_, projWalk_depth root maxdepth t hwf, fun parent n ch => by simp [walkT]⟩
  intro p
  have heq : get_project_dirs root maxdepth t
      = ((projWalk root maxdepth t).1.filter
          (fun pr => pr.2.hasChecklist)).map Prod.fst :=
    projWalk_proj_eq root maxdepth t
  rw [heq]
  constructor
  · intro hp
    rcases List.mem_map.mp hp with ⟨pr, hpr, hfst⟩
    rcases List.mem_filter.mp hpr with ⟨hmem, hck⟩
    exact ⟨pr, hmem, hfst, by simpa using hck⟩
  · rintro ⟨pr, hmem, hfst, hck⟩
    exact List.mem_map.mpr ⟨pr, List.mem_filter.mpr ⟨hmem, by simpa using hck⟩, hfst⟩

/-- A small study tree: one project directly below the root with a nested
project inside it, and a project two listing steps down. -/
def treeC4 : DTree := DTree.node "" false (DForest.ofList
  [DTree.node "STUDY1" true (DForest.ofList [DTree.node "inner" true DForest.nil]),
   DTree.node "other" false (DForest.ofList
     [DTree.node "deep" false (DForest.ofList
       [DTree.node "deeper" true DForest.nil])])])

/-- Witness for C4 on the concrete tree above. -/
theorem c4_project_dirs_characterisation_witness :
    (∀ p, p ∈ get_project_dirs "/archive/data-2.0" 2 treeC4 ↔
      ∃ pr ∈ (projWalk "/archive/data-2.0" 2 treeC4).1,
        pr.1 = p ∧ pr.2.hasChecklist = true)
  ∧ (∀ pr ∈ (projWalk "/archive/data-2.0" 2 treeC4).1,
      sepCount pr.1 - sepCount "/archive/data-2.0" ≤ 2)
  ∧ (∀ (parent n : String) (ch : DForest),
      walkT "/archive/data-2.0" 2 parent (DTree.node n true ch)
        = ([(pathJoin parent n, DTree.node n true ch)], [pathJoin parent n])) :=
  c4_project_dirs_characterisation "/archive/data-2.0" 2 treeC4 (by decide)

/-- Two sibling projects listed in the order b, a. -/
def treeC6 : DTree := DTree.node "" false
  (DForest.ofList [DTree.node "b" true DForest.nil,
    DTree.node "a" true DForest.nil])

/-- C6 counterexample: with children listed in the order b, a the function
returns ["/r/b", "/r/a"], which is not sorted by path ("/r/a" precedes
"/r/b" lexicographically), refuting the claim that the result is stably
sorted by path. -/
theorem c6_not_sorted_counterexample :
    get_project_dirs "/r" 2 treeC6 = ["/r/b", "/r/a"]
  ∧ "/r/a".toList < "/r/b".toList :=
  ⟨by decide, by decide⟩

/-- C6 (amended): the returned list is a pure function of the tree and of
the os.listdir enumeration order (hence deterministic for a fixed
enumeration), listing the qualifying directories in traversal preorder;
the code never sorts it by path. -/
theorem c6_projects_in_walk_order (root : String) (maxdepth : Nat) (t : DTree) :
    get_project_dirs root maxdepth t
      = ((projWalk root maxdepth t).1.filter
          (fun pr => pr.2.hasChecklist)).map Prod.fst :=
  projWalk_proj_eq root maxdepth t

/-! Checklist .pdf/.html synthesis (C7). -/

theorem addHtmlStep_preserves_pdf (d acc : Checklist) (k' : String)
    (hnocl : ∀ k1 ∈ d.map Prod.fst, ∀ k2 ∈ d.map Prod.fst,
      strContains k1 ".pdf" = true → strContains k2 ".pdf" = true →
      replaceAll k2 ".pdf" ".html" ≠ k1)
    (hk' : k' ∈ d.map Prod.fst)
    (hacc : ∀ kp ∈ d.map Prod.fst, strContains kp ".pdf" = true →
      dictGet acc kp = dictGet d kp) :
    ∀ kp ∈ d.map Prod.fst, strContains kp ".pdf" = true →
      dictGet (addHtmlStep acc k') kp = dictGet d kp := by
  intro kp hkp hpdf
  unfold addHtmlStep
  by_cases hc : strContains k' ".pdf" = true
  · rw [if_pos hc,
      dictGet_set_ne acc (replaceAll k' ".pdf" ".html") kp _
        (Ne.symm (hnocl kp hkp k' hk' hpdf hc))]
    exact hacc kp hkp hpdf
  · rw [if_neg hc]
    exact hacc kp hkp hpdf

theorem addHtml_fold_preserves_pdf (d : Checklist)
    (hnocl : ∀ k1 ∈ d.map Prod.fst, ∀ k2 ∈ d.map Prod.fst,
      strContains k1 ".pdf" = true → strContains k2 ".pdf" = true →
      replaceAll k2 ".pdf" ".html" ≠ k1) :
    ∀ (ks : List String) (acc : Checklist),
      (∀ x ∈ ks, x ∈ d.map Prod.fst) →
      (∀ kp ∈ d.map Prod.fst, strContains kp ".pdf" = true →
        dictGet acc kp = dictGet d kp) →
      ∀ kp ∈ d.map Prod.fst, strContains kp ".pdf" = true →
        dictGet (ks.foldl addHtmlStep acc) kp = dictGet d kp := by
  intro ks
  induction ks with
  | nil => intro acc _ hacc kp hkp hpdf; exact hacc kp hkp hpdf
  | cons k' rest ih =>
    intro acc hsub hacc kp hkp hpdf
    simp only [List.foldl_cons]
    exact ih (addHtmlStep acc k')
      (fun x hx => hsub x (List.mem_cons_of_mem k' hx))
      (addHtmlStep_preserves_pdf d acc k' hnocl
        (hsub k' (List.mem_cons_self k' rest)) hacc)
      kp hkp hpdf

theorem addHtml_fold_derive_stable (d : Checklist) (k : String)
    (hpdf : strContains k ".pdf" = true) (hkmem : k ∈ d.map Prod.fst)
    (hinj : ∀ k1 ∈ d.map Prod.fst, ∀ k2 ∈ d.map Prod.fst,
      strContains k1 ".pdf" = true → strContains k2 ".pdf" = true →
      replaceAll k1 ".pdf" ".html" = replaceAll k2 ".pdf" ".html" → k1 = k2) :
    ∀ (ks : List String) (acc : Checklist),
      (∀ x ∈ ks, x ∈ d.map Prod.fst) → k ∉ ks →
      dictGet (ks.foldl addHtmlStep acc) (replaceAll k ".pdf" ".html")
        = dictGet acc (replaceAll k ".pdf" ".html") := by
  intro ks
  induction ks with
  | nil => intro acc _ _; rfl
  | cons k' rest ih =>
    intro acc hsub hnot
    have hne : k' ≠ k := fun hc => hnot (hc ▸ List.mem_cons_self k' rest)
    have hstep : dictGet (addHtmlStep acc k') (replaceAll k ".pdf" ".html")
        = dictGet acc (replaceAll k ".pdf" ".html") := by
      unfold addHtmlStep
      by_cases hc : strContains k' ".pdf" = true
      · rw [if_pos hc]
        refine dictGet_set_ne acc _ _ _ ?_
        intro hder
        exact hne (hinj k' (hsub k' (List.mem_cons_self k' rest)) k hkmem hc
          hpdf hder.symm)
      · rw [if_neg hc]
    simp only [List.foldl_cons]
    rw [ih (addHtmlStep acc k')
      (fun x hx => hsub x (List.mem_cons_of_mem k' hx))
      (fun hc => hnot (List.mem_cons_of_mem k' hc)), hstep]

theorem addHtml_fold_main (d : Checklist) (k : String)
    (hpdf : strContains k ".pdf" = true) (hkmem : k ∈ d.map Prod.fst)
    (hinj : ∀ k1 ∈ d.map Prod.fst, ∀ k2 ∈ d.map Prod.fst,
      strContains k1 ".pdf" = true → strContains k2 ".pdf" = true →
      replaceAll k1 ".pdf" ".html" = replaceAll k2 ".pdf" ".html" → k1 = k2)
    (hnocl : ∀ k1 ∈ d.map Prod.fst, ∀ k2 ∈ d.map Prod.fst,
      strContains k1 ".pdf" = true → strContains k2 ".pdf" = true →
      replaceAll k2 ".pdf" ".html" ≠ k1) :
    ∀ (ks : List String) (acc : Checklist),
      (∀ x ∈ ks, x ∈ d.map Prod.fst) → ks.Nodup →
      (∀ kp ∈ d.map Prod.fst, strContains kp ".pdf" = true →
        dictGet acc kp = dictGet d kp) →
      k ∈ ks →
      dictGet (ks.foldl addHtmlStep acc) (replaceAll k ".pdf" ".html")
        = dictGet d k := by
  intro ks
  induction ks with
  | nil => intro acc _ _ _ hmem; simp at hmem
  | cons k' rest ih =>
    intro acc hsub hnd hacc hmem
    simp only [List.nodup_cons] at hnd
    simp only [List.foldl_cons]
    by_cases hkk : k' = k
    · subst hkk
      have hkrest : k' ∉ rest := hnd.1
      have hval : dictGet acc k' = dictGet d k' :=
        hacc k' hkmem hpdf
      obtain ⟨v, hv⟩ := Option.isSome_iff_exists.mp (dictGet_isSome_of_mem d k' hkmem)
      have hstep : dictGet (addHtmlStep acc k') (replaceAll k' ".pdf" ".html")
          = some v := by
        unfold addHtmlStep
        rw [if_pos hpdf, dictGet_set_eq, hval, hv]
        rfl
      rw [addHtml_fold_derive_stable d k' hpdf hkmem hinj rest
        (addHtmlStep acc k')
        (fun x hx => hsub x (List.mem_cons_of_mem k' hx)) hkrest,
        hstep, hv]
    · have hmem' : k ∈ rest := by
        rcases List.mem_cons.mp hmem with h | h
        · exact absurd h.symm hkk
        · exact h
      exact ih (addHtmlStep acc k')
        (fun x hx => hsub x (List.mem_cons_of_mem k' hx)) hnd.2
        (addHtmlStep_preserves_pdf d acc k' hnocl
          (hsub k' (List.mem_cons_self k' rest)) hacc)
        hmem'

/-- C7 counterexample: the checklist with keys a.html.pdf and a.pdf.pdf
(distinct values): both keys derive the same name a.html.html, so after
the synthesis one of the two .pdf keys does not have a derived key holding
its value — the claim fails as stated on this mapping. -/
theorem c7_collision_counterexample :
    ¬ (∀ k ∈ ([("a.html.pdf", ["x"]), ("a.pdf.pdf", ["y"])] : Checklist).map
        Prod.fst,
      strContains k ".pdf" = true →
      dictGet (addHtmlKeys [("a.html.pdf", ["x"]), ("a.pdf.pdf", ["y"])])
          (replaceAll k ".pdf" ".html")
        = dictGet [("a.html.pdf", ["x"]), ("a.pdf.pdf", ["y"])] k) := by decide

/-- C7 (amended): provided the derived .html names of the .pdf keys are
pairwise distinct and collide with no existing .pdf key (true of every
real checklist, whose keys contain a single .pdf suffix), every key
containing .pdf has, after the synthesis, a corresponding key with .pdf
replaced by .html bound to exactly the original key value. -/
theorem c7_pdf_html_synthesis (d : Checklist)
    (hnd : (d.map Prod.fst).Nodup)
    (hinj : ∀ k1 ∈ d.map Prod.fst, ∀ k2 ∈ d.map Prod.fst,
      strContains k1 ".pdf" = true → strContains k2 ".pdf" = true →
      replaceAll k1 ".pdf" ".html" = replaceAll k2 ".pdf" ".html" → k1 = k2)
    (hnocl : ∀ k1 ∈ d.map Prod.fst, ∀ k2 ∈ d.map Prod.fst,
      strContains k1 ".pdf" = true → strContains k2 ".pdf" = true →
      replaceAll k2 ".pdf" ".html" ≠ k1) :
    ∀ k ∈ d.map Prod.fst, strContains k ".pdf" = true →
      dictGet (addHtmlKeys d) (replaceAll k ".pdf" ".html") = dictGet d k := by
  intro k hk hpdf
  unfold addHtmlKeys
  exact addHtml_fold_main d k hpdf hk hinj hnocl (d.map Prod.fst) d
    (fun x hx => hx) hnd (fun kp _ _ => rfl) hk

/-- Witness for C7 on a checklist that already holds a qc_A.html entry
beside qc_A.pdf (the derived name collides with an existing non-.pdf key,
which the proviso permits): after the synthesis the qc_A.html binding
holds exactly the value of qc_A.pdf. -/
theorem c7_pdf_html_synthesis_witness :
    dictGet (addHtmlKeys
        [("qc_A.pdf", ["ok"]), ("qc_A.html", ["old"]), ("qc_B.pdf", [])])
        (replaceAll "qc_A.pdf" ".pdf" ".html")
      = dictGet [("qc_A.pdf", ["ok"]), ("qc_A.html", ["old"]), ("qc_B.pdf", [])]
        "qc_A.pdf" :=
  c7_pdf_html_synthesis
    [("qc_A.pdf", ["ok"]), ("qc_A.html", ["old"]), ("qc_B.pdf", [])]
    (by decide) (by decide) (by decide) "qc_A.pdf" (by decide) (by decide)
